import Mathlib

/-!
Verification development for the collaborative-filtering recommendation
engine in src/recommendation_engine.py (class RecommendationSystem).

The engine is embedded shallowly: the two pandas DataFrames
(products_df, purchases_df) become Lean lists of records; the pivot
matrix, cosine similarity, groupby aggregation, sorting, head and merge
steps of the Python code become the pure Lean functions below.  Machine
floats of the source are modelled by exact rationals; the default
pandas sort (numpy quicksort, which is insertion sort — hence stable —
on the small frames this system handles) is modelled by a stable
insertion sort; pandas inner merge preserves the order of the left
keys, which the join function below reproduces.
-/

/-- A row of products_df: columns product_id, name, category, price. -/
structure Product where
  product_id : Int
  name : String
  category : String
  price : ℚ
deriving Repr, DecidableEq

/-- A row of purchases_df: columns user_id, product_id, rating. -/
structure Purchase where
  user_id : Int
  product_id : Int
  rating : ℚ
deriving Repr, DecidableEq

/-- The state the class RecommendationSystem holds after load_data:
the two data frames.  The pivot user_item_matrix is a pure function of
purchases_df (pivot_table with mean aggregation and fill_value 0) and is
recomputed on demand by matrixCell below. -/
structure RecSystem where
  products_df : List Product
  purchases_df : List Purchase
deriving Repr, DecidableEq

/-- load_data: reads the two CSV tables and stores them; the embedding
receives the parsed table contents (file parsing is outside the model).
The source performs no validation of any kind here. -/
def load_data (products : List Product) (purchases : List Purchase) : RecSystem :=
  ⟨products, purchases⟩

/-- Insert an integer into an ascending duplicate-free list, keeping it
ascending and duplicate-free. -/
def insertAsc (x : Int) : List Int → List Int
  | [] => [x]
  | y :: ys => if x < y then x :: y :: ys else if x = y then y :: ys else y :: insertAsc x ys

/-- The ascending list of distinct values of a column: the index pandas
produces for a pivot_table or a groupby (both sort their keys). -/
def sortedKeys (l : List Int) : List Int :=
  l.foldr insertAsc []

/-- Stable insertion step of a descending sort: x is placed before the
first element not strictly greater than it, so that elements equal to x
that were earlier in the input stay earlier. -/
def insertDesc (gt : α → α → Bool) (x : α) : List α → List α
  | [] => [x]
  | y :: ys => if gt y x then y :: insertDesc gt x ys else x :: y :: ys

/-- Stable descending sort: the model of pandas sort_values with
ascending=False on the frame sizes this system handles (numpy uses
insertion sort below 16 elements, which is stable). -/
def sortValuesDesc (gt : α → α → Bool) : List α → List α
  | [] => []
  | x :: xs => insertDesc gt x (sortValuesDesc gt xs)

/-- DataFrame.head(n): the first n rows for n ≥ 0; for negative n,
pandas returns all rows but the last |n|. -/
def dfHead (n : Int) (l : List α) : List α :=
  if 0 ≤ n then l.take n.toNat else l.take (l.length - n.natAbs)

/-- Row index of the pivot user_item_matrix: the distinct user_id
values of purchases_df, ascending. -/
def matrixIndex (rows : List Purchase) : List Int :=
  sortedKeys (rows.map (·.user_id))

/-- Column index of the pivot user_item_matrix: the distinct product_id
values of purchases_df, ascending. -/
def matrixCols (rows : List Purchase) : List Int :=
  sortedKeys (rows.map (·.product_id))

/-- A cell of the pivot user_item_matrix: pivot_table aggregates the
ratings of all rows sharing (user_id, product_id) with its default
aggfunc, the arithmetic mean, and fills absent cells with 0. -/
def matrixCell (rows : List Purchase) (u p : Int) : ℚ :=
  let rs := (rows.filter (fun q => q.user_id == u && q.product_id == p)).map (·.rating)
  if rs.length = 0 then 0 else rs.sum / (rs.length : ℚ)

/-- Dot product of the matrix rows of users u and v. -/
def rowDot (rows : List Purchase) (u v : Int) : ℚ :=
  ((matrixCols rows).map (fun p => matrixCell rows u p * matrixCell rows v p)).sum

/-- Squared euclidean norm of the matrix row of user u. -/
def rowNormSq (rows : List Purchase) (u : Int) : ℚ :=
  rowDot rows u u

/-- Exact representation of the cosine similarity of users u and v as a
pair (d, n) standing for d / sqrt n: d is the dot product and n the
product of the squared norms, each squared norm replaced by 1 when it
is 0 exactly as sklearn cosine_similarity does (a zero row then gets
similarity 0, since its dot products are 0). -/
def simPair (rows : List Purchase) (u v : Int) : ℚ × ℚ :=
  (rowDot rows u v,
    (if rowNormSq rows u = 0 then 1 else rowNormSq rows u) *
      (if rowNormSq rows v = 0 then 1 else rowNormSq rows v))

/-- Exact comparison of two represented similarities a.1 / sqrt a.2 and
b.1 / sqrt b.2 (the denominators are positive): the float comparison the
pandas sort performs, decided over the rationals by sign analysis and
cross-multiplied squares. -/
def simGt (a b : ℚ × ℚ) : Bool :=
  if 0 ≤ a.1 then
    if 0 ≤ b.1 then decide (b.1 * b.1 * a.2 < a.1 * a.1 * b.2) else true
  else
    if 0 ≤ b.1 then false else decide (a.1 * a.1 * b.2 < b.1 * b.1 * a.2)

/-- The column of the all-pairs similarity frame for the target user:
one entry (v, similarity u v) per user v of the matrix index, in index
(ascending user_id) order. -/
def simsColumn (sys : RecSystem) (u : Int) : List (Int × (ℚ × ℚ)) :=
  (matrixIndex sys.purchases_df).map (fun v => (v, simPair sys.purchases_df u v))

/-- find_similar_users: returns [] when user_id is not in the matrix
index; otherwise sorts the similarity column descending (stably) and
returns the user ids of positions 1 through num_similar — the slice
[1:num_similar+1] of the source, which drops exactly one element,
assumed to be the self-similarity row. -/
def find_similar_users (sys : RecSystem) (user_id : Int) (num_similar : Nat) : List Int :=
  if user_id ∈ matrixIndex sys.purchases_df then
    ((((sortValuesDesc (fun a b => simGt a.2 b.2) (simsColumn sys user_id))).drop 1).take
      num_similar).map (·.1)
  else []

/-- The product_id list of the target user: the source line
purchases_df[purchases_df.user_id == user_id].product_id.tolist(). -/
def userPurchases (sys : RecSystem) (user_id : Int) : List Int :=
  (sys.purchases_df.filter (fun q => q.user_id == user_id)).map (·.product_id)

/-- The filtered neighbor interactions: rows of purchases_df whose
user_id is one of the similar users (found with the default
num_similar = 5 of the source) and whose product_id the target user has
not purchased. -/
def similarPurchases (sys : RecSystem) (user_id : Int) : List Purchase :=
  sys.purchases_df.filter (fun q =>
    decide (q.user_id ∈ find_similar_users sys user_id 5) &&
      decide (q.product_id ∉ userPurchases sys user_id))

/-- A row of the aggregated candidate frame: groupby product_id with
mean of rating and count of user_id (a row count). -/
structure Cand where
  pid : Int
  rating : ℚ
  count : Nat
deriving Repr, DecidableEq

/-- groupby(product_id).agg(rating mean, user_id count): one candidate
per distinct product_id, keys ascending (pandas groupby sorts keys). -/
def groupbyAgg (rows : List Purchase) : List Cand :=
  (sortedKeys (rows.map (·.product_id))).map (fun p =>
    let rs := (rows.filter (fun q => q.product_id == p)).map (·.rating)
    ⟨p, rs.sum / (rs.length : ℚ), rs.length⟩)

/-- The sort key of sort_values(by=[rating, count], ascending=False):
a strictly greater than b in the descending lexicographic order. -/
def candGt (a b : Cand) : Bool :=
  decide (b.rating < a.rating ∨ (a.rating = b.rating ∧ b.count < a.count))

/-- A row of the final output frame: columns product_id, name,
category, price, rating (mean over contributors), count. -/
structure OutRow where
  product_id : Int
  name : String
  category : String
  price : ℚ
  rating : ℚ
  count : Nat
deriving Repr, DecidableEq

/-- The inner merge of the candidate frame (left, indexed by product_id)
with products_df (right_on product_id): for each candidate in order,
one output row per catalog row carrying its product_id — pandas inner
merge preserves the order of the left keys.  A candidate without a
catalog row produces nothing. -/
def mergeProducts (products : List Product) : List Cand → List OutRow
  | [] => []
  | c :: cs =>
    ((products.filter (fun p => p.product_id == c.pid)).map (fun p =>
      ⟨p.product_id, p.name, p.category, p.price, c.rating, c.count⟩)) ++
      mergeProducts products cs

/-- The shared aggregate-sort-head-merge block of get_recommendations
and get_popular_products (the source duplicates this code verbatim in
the two methods, over different input rows). -/
def aggregateRankJoin (rows : List Purchase) (n : Int) (products : List Product) : List OutRow :=
  mergeProducts products (dfHead n (sortValuesDesc candGt (groupbyAgg rows)))

/-- get_popular_products: groupby over all of purchases_df, sort by
(rating, count) descending, head(num_products), merge with the
catalog. -/
def get_popular_products (sys : RecSystem) (num_products : Int) : List OutRow :=
  aggregateRankJoin sys.purchases_df num_products sys.products_df

/-- get_recommendations: find the similar users (default num_similar
5); if there are none, fall back to get_popular_products; otherwise
aggregate, sort, truncate and join the filtered neighbor
interactions. -/
def get_recommendations (sys : RecSystem) (user_id : Int) (num_recommendations : Int) :
    List OutRow :=
  if find_similar_users sys user_id 5 = [] then
    get_popular_products sys num_recommendations
  else
    aggregateRankJoin (similarPurchases sys user_id) num_recommendations sys.products_df

/-- get_user_purchases: the rows of the target user inner-merged with
the catalog on product_id, in purchase-log order. -/
def get_user_purchases (sys : RecSystem) (user_id : Int) : List (Int × String × String × ℚ × ℚ) :=
  (sys.purchases_df.filter (fun q => q.user_id == user_id)).foldr
    (fun q acc =>
      ((sys.products_df.filter (fun p => p.product_id == q.product_id)).map (fun p =>
        (p.product_id, p.name, p.category, p.price, q.rating))) ++ acc) []

/-! ## Concrete datasets used to settle the claims -/

/-- A catalog with one product and a single user who purchased it: the
sole user of the log. -/
def exSolo : RecSystem := load_data [⟨10, "A", "cat", 1⟩] [⟨1, 10, 5⟩]

/-- Two users who both purchased the one catalog product (their
one-column rating vectors are proportional, so their cosine similarity
with each other is exactly 1, tying the self-similarity). -/
def exPair : RecSystem := load_data [⟨10, "A", "cat", 1⟩] [⟨1, 10, 5⟩, ⟨2, 10, 4⟩]

/-- A log in which the neighbor (user 2) rated catalog products 1 and 2
with rating 4 and the uncatalogued product 999 with rating 5; the
target user 1 purchased only product 50. -/
def exJoin : RecSystem := load_data [⟨1, "A", "cat", 1⟩, ⟨2, "B", "cat", 1⟩]
  [⟨1, 50, 5⟩, ⟨2, 50, 3⟩, ⟨2, 999, 5⟩, ⟨2, 1, 4⟩, ⟨2, 2, 4⟩]

/-- Two interactions of the same user on the same product with
different ratings. -/
def exDup : RecSystem := load_data [⟨10, "A", "cat", 1⟩] [⟨1, 10, 5⟩, ⟨1, 10, 3⟩]

/-- An interaction referencing product 999, absent from the catalog. -/
def exGhost : RecSystem := load_data [⟨1, "A", "cat", 1⟩] [⟨9, 999, 5⟩]

/-! ## Helper lemmas about the list machinery -/

theorem mem_insertAsc {x a : Int} {l : List Int} :
    a ∈ insertAsc x l ↔ a = x ∨ a ∈ l := by
  induction l with
  | nil => simp [insertAsc]
  | cons y ys ih =>
    by_cases h1 : x < y
    · simp [insertAsc, h1]
    · by_cases h2 : x = y
      · subst h2
        simp [insertAsc, h1]
      · simp [insertAsc, h1, h2, ih]
        tauto

theorem pairwise_insertAsc {x : Int} {l : List Int}
    (h : l.Pairwise (· < ·)) : (insertAsc x l).Pairwise (· < ·) := by
  induction l with
  | nil => simp [insertAsc]
  | cons y ys ih =>
    rcases List.pairwise_cons.mp h with ⟨hy, hys⟩
    by_cases h1 : x < y
    · simp only [insertAsc, if_pos h1]
      refine List.pairwise_cons.mpr ⟨?_, h⟩
      intro z hz
      rcases List.mem_cons.mp hz with rfl | hz2
      · exact h1
      · exact lt_trans h1 (hy z hz2)
    · by_cases h2 : x = y
      · simpa [insertAsc, h1, h2] using h
      · have hxy : y < x := by omega
        simp only [insertAsc, if_neg h1, if_neg h2]
        refine List.pairwise_cons.mpr ⟨?_, ih hys⟩
        intro z hz
        rcases mem_insertAsc.mp hz with rfl | hz2
        · exact hxy
        · exact hy z hz2

theorem mem_sortedKeys {a : Int} {l : List Int} :
    a ∈ sortedKeys l ↔ a ∈ l := by
  induction l with
  | nil => simp [sortedKeys]
  | cons y ys ih =>
    simp only [sortedKeys, List.foldr_cons] at *
    rw [mem_insertAsc, ih, List.mem_cons]

theorem pairwise_sortedKeys (l : List Int) :
    (sortedKeys l).Pairwise (· < ·) := by
  induction l with
  | nil => simp [sortedKeys]
  | cons y ys ih => exact pairwise_insertAsc ih

theorem mem_insertDesc {gt : α → α → Bool} {x a : α} {l : List α} :
    a ∈ insertDesc gt x l ↔ a = x ∨ a ∈ l := by
  induction l with
  | nil => simp [insertDesc]
  | cons y ys ih =>
    by_cases h : gt y x
    · simp [insertDesc, h, ih]
      tauto
    · simp [insertDesc, h]

theorem mem_sortValuesDesc {gt : α → α → Bool} {a : α} {l : List α} :
    a ∈ sortValuesDesc gt l ↔ a ∈ l := by
  induction l with
  | nil => simp [sortValuesDesc]
  | cons y ys ih =>
    simp only [sortValuesDesc]
    rw [mem_insertDesc, ih, List.mem_cons]

theorem length_insertDesc (gt : α → α → Bool) (x : α) (l : List α) :
    (insertDesc gt x l).length = l.length + 1 := by
  induction l with
  | nil => simp [insertDesc]
  | cons y ys ih =>
    by_cases h : gt y x
    · simp [insertDesc, h, ih]
    · simp [insertDesc, h]

theorem length_sortValuesDesc (gt : α → α → Bool) (l : List α) :
    (sortValuesDesc gt l).length = l.length := by
  induction l with
  | nil => rfl
  | cons y ys ih => simp [sortValuesDesc, length_insertDesc, ih]

theorem dfHead_sublist (n : Int) (l : List α) : (dfHead n l).Sublist l := by
  unfold dfHead
  by_cases h : 0 ≤ n
  · simpa [h] using List.take_sublist _ _
  · simpa [h] using List.take_sublist _ _

theorem mem_dfHead {n : Int} {l : List α} {a : α} (h : a ∈ dfHead n l) : a ∈ l :=
  (dfHead_sublist n l).mem h

theorem length_dfHead_le (n : Int) (l : List α) (hn : 0 ≤ n) :
    (dfHead n l).length ≤ n.toNat := by
  simp [dfHead, hn]

/-! ## The ranking order established by the candidate sort -/

/-- The ordering the spec ascribes to the ranked output: a precedes b
exactly when a has strictly higher mean rating, or equal mean rating
and strictly higher count, or equal mean rating and count and smaller
product_id. -/
def candKeyAfter (a b : Cand) : Prop :=
  b.rating < a.rating ∨ (a.rating = b.rating ∧ b.count < a.count) ∨
    (a.rating = b.rating ∧ a.count = b.count ∧ a.pid < b.pid)

theorem candKeyAfter_of_gt {a b : Cand} (h : candGt a b = true) : candKeyAfter a b := by
  unfold candGt at h
  rcases of_decide_eq_true h with h1 | h2
  · exact Or.inl h1
  · exact Or.inr (Or.inl h2)

theorem candKeyAfter_of_not_gt {x y : Cand} (hid : x.pid < y.pid)
    (h : ¬ candGt y x = true) : candKeyAfter x y := by
  unfold candGt at h
  rw [decide_eq_true_iff] at h
  push_neg at h
  rcases h with ⟨h1, h2⟩
  rcases lt_or_eq_of_le h1 with hlt | heq
  · exact Or.inl hlt
  · rcases Nat.lt_or_ge y.count x.count with hc | hc
    · exact Or.inr (Or.inl ⟨heq.symm, hc⟩)
    · exact Or.inr (Or.inr ⟨heq.symm, Nat.le_antisymm hc (h2 heq), hid⟩)

theorem candKeyAfter_chain {x y z : Cand} (hgt : ¬ candGt y x = true)
    (hyz : candKeyAfter y z) (hid : x.pid < z.pid) : candKeyAfter x z := by
  unfold candGt at hgt
  rw [decide_eq_true_iff] at hgt
  push_neg at hgt
  rcases hgt with ⟨h1, h2⟩
  rcases hyz with hz1 | ⟨hz2, hz3⟩ | ⟨hz4, hz5, _⟩
  · exact Or.inl (lt_of_lt_of_le hz1 h1)
  · rcases lt_or_eq_of_le h1 with hlt | heq
    · exact Or.inl (hz2 ▸ hlt)
    · exact Or.inr (Or.inl ⟨(heq.symm.trans hz2), lt_of_lt_of_le hz3 (h2 heq)⟩)
  · rcases lt_or_eq_of_le h1 with hlt | heq
    · exact Or.inl (hz4 ▸ hlt)
    · have hcy : y.count ≤ x.count := h2 heq
      rcases lt_or_eq_of_le hcy with hclt | hceq
      · exact Or.inr (Or.inl ⟨heq.symm.trans hz4, hz5 ▸ hclt⟩)
      · exact Or.inr (Or.inr ⟨heq.symm.trans hz4, hz5 ▸ hceq.symm, hid⟩)

theorem pairwise_insertDesc_cand {x : Cand} {l : List Cand}
    (hid : ∀ y ∈ l, x.pid < y.pid) (hl : l.Pairwise candKeyAfter) :
    (insertDesc candGt x l).Pairwise candKeyAfter := by
  induction l with
  | nil => simp [insertDesc]
  | cons y ys ih =>
    rcases List.pairwise_cons.mp hl with ⟨hy, hys⟩
    by_cases h : candGt y x = true
    · simp only [insertDesc, if_pos h]
      refine List.pairwise_cons.mpr ⟨?_, ih (fun z hz => hid z (List.mem_cons_of_mem _ hz)) hys⟩
      intro z hz
      rcases mem_insertDesc.mp hz with rfl | hz2
      · exact candKeyAfter_of_gt h
      · exact hy z hz2
    · simp only [insertDesc, if_neg h]
      refine List.pairwise_cons.mpr ⟨?_, hl⟩
      intro z hz
      rcases List.mem_cons.mp hz with rfl | hz2
      · exact candKeyAfter_of_not_gt (hid z (List.mem_cons_self _ _)) h
      · exact candKeyAfter_chain h (hy z hz2) (hid z (List.mem_cons_of_mem _ hz2))

theorem pairwise_sortValuesDesc_cand {l : List Cand}
    (h : l.Pairwise (fun a b => a.pid < b.pid)) :
    (sortValuesDesc candGt l).Pairwise candKeyAfter := by
  induction l with
  | nil => simp [sortValuesDesc]
  | cons x xs ih =>
    rcases List.pairwise_cons.mp h with ⟨hx, hxs⟩
    simp only [sortValuesDesc]
    exact pairwise_insertDesc_cand (fun y hy => hx y (mem_sortValuesDesc.mp hy)) (ih hxs)

/-! ## Lemmas about the groupby aggregation -/

theorem groupbyAgg_pairwise_pid (rows : List Purchase) :
    (groupbyAgg rows).Pairwise (fun a b => a.pid < b.pid) := by
  unfold groupbyAgg
  exact (pairwise_sortedKeys _).map _ (fun a b h => h)

theorem mem_groupbyAgg_pid {rows : List Purchase} {c : Cand}
    (h : c ∈ groupbyAgg rows) : c.pid ∈ rows.map (·.product_id) := by
  unfold groupbyAgg at h
  rcases List.mem_map.mp h with ⟨p, hp, rfl⟩
  exact mem_sortedKeys.mp hp

/-! ## Lemmas about the catalog merge -/

theorem mem_mergeProducts {products : List Product} {cands : List Cand} {r : OutRow}
    (h : r ∈ mergeProducts products cands) :
    ∃ c ∈ cands, r.product_id = c.pid ∧ r.rating = c.rating ∧ r.count = c.count ∧
      r.product_id ∈ products.map (·.product_id) := by
  induction cands with
  | nil => simp [mergeProducts] at h
  | cons c cs ih =>
    simp only [mergeProducts, List.mem_append] at h
    rcases h with h | h
    · rcases List.mem_map.mp h with ⟨p, hp, rfl⟩
      rcases List.mem_filter.mp hp with ⟨hpmem, hpid⟩
      have hpc : p.product_id = c.pid := by simpa using hpid
      exact ⟨c, List.mem_cons_self _ _, hpc, rfl, rfl, List.mem_map.mpr ⟨p, hpmem, rfl⟩⟩
    · rcases ih h with ⟨c2, hc2, h1, h2, h3, h4⟩
      exact ⟨c2, List.mem_cons_of_mem _ hc2, h1, h2, h3, h4⟩

theorem filter_pid_length_le_one {products : List Product}
    (h : (products.map (·.product_id)).Nodup) (k : Int) :
    (products.filter (fun p => p.product_id == k)).length ≤ 1 := by
  induction products with
  | nil => simp
  | cons p ps ih =>
    rw [List.map_cons, List.nodup_cons] at h
    rcases h with ⟨hp, hps⟩
    by_cases hk : p.product_id == k
    · have hknil : ps.filter (fun q => q.product_id == k) = [] := by
        rw [List.filter_eq_nil_iff]
        intro q hq hqk
        have h1 : q.product_id = k := by simpa using hqk
        have h2 : p.product_id = k := by simpa using hk
        exact hp (List.mem_map.mpr ⟨q, hq, h1.trans h2.symm⟩)
      simp [List.filter_cons, hk, hknil]
    · simp only [List.filter_cons, hk]
      simpa using ih hps

theorem length_mergeProducts_le {products : List Product} {cands : List Cand}
    (h : (products.map (·.product_id)).Nodup) :
    (mergeProducts products cands).length ≤ cands.length := by
  induction cands with
  | nil => simp [mergeProducts]
  | cons c cs ih =>
    simp only [mergeProducts, List.length_append, List.length_map, List.length_cons]
    have h1 := filter_pid_length_le_one h c.pid
    omega

/-- The ordering the spec ascribes to the joined output rows, stated on
the output columns. -/
def rowKeyAfter (a b : OutRow) : Prop :=
  b.rating < a.rating ∨ (a.rating = b.rating ∧ b.count < a.count) ∨
    (a.rating = b.rating ∧ a.count = b.count ∧ a.product_id < b.product_id)

theorem pairwise_of_length_le_one {R : α → α → Prop} {l : List α}
    (h : l.length ≤ 1) : l.Pairwise R := by
  match l, h with
  | [], _ => exact List.Pairwise.nil
  | [a], _ => exact List.pairwise_singleton R a

theorem pairwise_mergeProducts {products : List Product} {cands : List Cand}
    (hnd : (products.map (·.product_id)).Nodup)
    (h : cands.Pairwise candKeyAfter) :
    (mergeProducts products cands).Pairwise rowKeyAfter := by
  induction cands with
  | nil => simp [mergeProducts]
  | cons c cs ih =>
    rcases List.pairwise_cons.mp h with ⟨hc, hcs⟩
    simp only [mergeProducts]
    rw [List.pairwise_append]
    refine ⟨?_, ih hcs, ?_⟩
    · exact pairwise_of_length_le_one (by
        simpa using filter_pid_length_le_one hnd c.pid)
    · intro a ha b hb
      rcases List.mem_map.mp ha with ⟨p, hp, rfl⟩
      rcases List.mem_filter.mp hp with ⟨-, hpid⟩
      have hpc : p.product_id = c.pid := by simpa using hpid
      rcases mem_mergeProducts hb with ⟨c2, hc2, hb1, hb2, hb3, -⟩
      have hrel := hc c2 hc2
      rcases hrel with h1 | ⟨h2a, h2b⟩ | ⟨h3a, h3b, h3c⟩
      · exact Or.inl (by simpa [hb2] using h1)
      · exact Or.inr (Or.inl (by simp only [hb2, hb3]; exact ⟨h2a, h2b⟩))
      · exact Or.inr (Or.inr (by
          simp only [hb1, hb2, hb3, hpc]
          exact ⟨h3a, h3b, h3c⟩))

/-! ## Lemmas about the shared aggregate-sort-head-merge block -/

theorem mem_aggregateRankJoin {rows : List Purchase} {n : Int} {products : List Product}
    {r : OutRow} (h : r ∈ aggregateRankJoin rows n products) :
    r.product_id ∈ rows.map (·.product_id) ∧ r.product_id ∈ products.map (·.product_id) := by
  unfold aggregateRankJoin at h
  rcases mem_mergeProducts h with ⟨c, hc, h1, -, -, h4⟩
  have hc2 : c ∈ sortValuesDesc candGt (groupbyAgg rows) := mem_dfHead hc
  have hc3 : c ∈ groupbyAgg rows := mem_sortValuesDesc.mp hc2
  exact ⟨h1 ▸ mem_groupbyAgg_pid hc3, h4⟩

theorem length_aggregateRankJoin_le {rows : List Purchase} {n : Int} {products : List Product}
    (hnd : (products.map (·.product_id)).Nodup) (hn : 0 ≤ n) :
    (aggregateRankJoin rows n products).length ≤ n.toNat := by
  unfold aggregateRankJoin
  calc (mergeProducts products (dfHead n (sortValuesDesc candGt (groupbyAgg rows)))).length
      ≤ (dfHead n (sortValuesDesc candGt (groupbyAgg rows))).length :=
        length_mergeProducts_le hnd
    _ ≤ n.toNat := length_dfHead_le _ _ hn

theorem pairwise_aggregateRankJoin {rows : List Purchase} {n : Int} {products : List Product}
    (hnd : (products.map (·.product_id)).Nodup) :
    (aggregateRankJoin rows n products).Pairwise rowKeyAfter := by
  unfold aggregateRankJoin
  refine pairwise_mergeProducts hnd ?_
  exact ((pairwise_sortValuesDesc_cand (groupbyAgg_pairwise_pid rows)).sublist
    (dfHead_sublist _ _))

theorem aggregateRankJoin_nil (n : Int) (products : List Product) :
    aggregateRankJoin [] n products = [] := by
  have h1 : groupbyAgg [] = [] := by simp [groupbyAgg, sortedKeys]
  simp [aggregateRankJoin, h1, sortValuesDesc, dfHead, mergeProducts]

theorem aggregateRankJoin_zero (rows : List Purchase) (products : List Product) :
    aggregateRankJoin rows 0 products = [] := by
  unfold aggregateRankJoin dfHead
  norm_num [mergeProducts]

/-! ## Characterization of the matrix index and the neighbor list -/

theorem mem_matrixIndex {rows : List Purchase} {u : Int} :
    u ∈ matrixIndex rows ↔ ∃ q ∈ rows, q.user_id = u := by
  unfold matrixIndex
  rw [mem_sortedKeys, List.mem_map]

theorem two_mem_le_length {l : List Int} {a b : Int} (ha : a ∈ l) (hb : b ∈ l)
    (hab : a ≠ b) : 2 ≤ l.length := by
  match l with
  | [] => cases ha
  | [x] =>
    rw [List.mem_singleton] at ha hb
    exact absurd (ha.trans hb.symm) hab
  | x :: y :: t => simp

/-- If the target user is in the matrix index together with at least
one other user, the slice of find_similar_users is nonempty. -/
theorem find_similar_users_ne_nil {sys : RecSystem} {u : Int}
    (hu : u ∈ matrixIndex sys.purchases_df)
    (hother : ∃ v ∈ matrixIndex sys.purchases_df, v ≠ u) (k : Nat) (hk : 0 < k) :
    find_similar_users sys u k ≠ [] := by
  unfold find_similar_users
  rw [if_pos hu]
  intro hnil
  rw [List.map_eq_nil_iff, List.take_eq_nil_iff, List.drop_eq_nil_iff] at hnil
  rcases hother with ⟨v, hv, hvu⟩
  have h2 : 2 ≤ (matrixIndex sys.purchases_df).length := two_mem_le_length hv hu hvu
  have hlen : (sortValuesDesc (fun a b => simGt a.2 b.2) (simsColumn sys u)).length =
      (matrixIndex sys.purchases_df).length := by
    rw [length_sortValuesDesc]
    unfold simsColumn
    rw [List.length_map]
  rcases hnil with hk0 | hle
  · omega
  · omega

/-! ## Claim C2: an unknown user gets exactly the popularity ranking -/

/-- Claim C2 (confirmed): for every user u absent from the interaction
log (hence from the matrix index) and every positive count n,
get_recommendations returns exactly the list get_popular_products
returns — the unknown user is routed to the fallback, not an error. -/
theorem C2_unknown_user_popular_fallback (sys : RecSystem) (u n : Int)
    (hn : 0 < n) (hu : ∀ q ∈ sys.purchases_df, q.user_id ≠ u) :
    get_recommendations sys u n = get_popular_products sys n := by
  have hidx : u ∉ matrixIndex sys.purchases_df := by
    intro hmem
    rcases mem_matrixIndex.mp hmem with ⟨q, hq, hq2⟩
    exact hu q hq hq2
  have hfsu : find_similar_users sys u 5 = [] := by
    unfold find_similar_users
    rw [if_neg hidx]
  unfold get_recommendations
  rw [if_pos hfsu]

/-- Witness for C2 at a concrete input: user 99 has no interaction in
exPair, and the recommendation call equals the popularity call. -/
theorem C2_unknown_user_popular_fallback_witness :
    (0 : Int) < 5 ∧ (∀ q ∈ exPair.purchases_df, q.user_id ≠ 99) ∧
      get_recommendations exPair 99 5 = get_popular_products exPair 5 :=
  ⟨by decide, by decide, C2_unknown_user_popular_fallback exPair 99 5 (by decide) (by decide)⟩

/-! ## Claim C1: purchased items are excluded (amended) -/

/-- Claim C1 (amended): as long as the interaction log contains an
interaction by some user other than u, no item_id of an interaction of
u appears in get_recommendations u n.  (The unamended claim fails when
u is the only user in the log: the slice of find_similar_users then
drops the single similarity row and the popularity fallback returns
items u already purchased — see the counterexample.) -/
theorem C1_excludes_purchased (sys : RecSystem) (u n : Int) (hn : 0 < n)
    (hother : ∃ q ∈ sys.purchases_df, q.user_id ≠ u) :
    ∀ r ∈ get_recommendations sys u n, ∀ q ∈ sys.purchases_df,
      q.user_id = u → q.product_id ≠ r.product_id := by
  intro r hr q hq hqu
  unfold get_recommendations at hr
  by_cases hfsu : find_similar_users sys u 5 = []
  · exfalso
    have hidx : u ∈ matrixIndex sys.purchases_df :=
      mem_matrixIndex.mpr ⟨q, hq, hqu⟩
    rcases hother with ⟨q2, hq2, hq2u⟩
    have hidx2 : q2.user_id ∈ matrixIndex sys.purchases_df :=
      mem_matrixIndex.mpr ⟨q2, hq2, rfl⟩
    exact find_similar_users_ne_nil hidx ⟨q2.user_id, hidx2, hq2u⟩ 5 (by omega) hfsu
  · rw [if_neg hfsu] at hr
    rcases mem_aggregateRankJoin hr with ⟨hmem, -⟩
    rcases List.mem_map.mp hmem with ⟨q3, hq3, hq3pid⟩
    rcases List.mem_filter.mp hq3 with ⟨-, hpred⟩
    simp only [Bool.and_eq_true, decide_eq_true_eq] at hpred
    intro heq
    apply hpred.2
    unfold userPurchases
    refine List.mem_map.mpr ⟨q, List.mem_filter.mpr ⟨hq, ?_⟩, ?_⟩
    · simpa using hqu
    · rw [heq, hq3pid]

/-! ## Claim C3: known user whose candidates are all filtered away -/

/-- Claim C3 (amended): when the neighbor list is nonempty but every
neighbor interaction is on an item the target user already purchased,
get_recommendations returns the empty list — it does NOT fall back to
get_popular_products as the claim states (see the counterexample). -/
theorem C3_filtered_out_returns_empty (sys : RecSystem) (u n : Int)
    (hne : find_similar_users sys u 5 ≠ [])
    (hall : ∀ q ∈ sys.purchases_df, q.user_id ∈ find_similar_users sys u 5 →
      q.product_id ∈ userPurchases sys u) :
    get_recommendations sys u n = [] := by
  have hsp : similarPurchases sys u = [] := by
    unfold similarPurchases
    rw [List.filter_eq_nil_iff]
    intro q hq hpred
    simp only [Bool.and_eq_true, decide_eq_true_eq] at hpred
    exact hpred.2 (hall q hq hpred.1)
  unfold get_recommendations
  rw [if_neg hne, hsp, aggregateRankJoin_nil]

/-! ## Claim C4: behavior of load on an unknown item (amended) -/

/-- Claim C4 (amended): load_data performs no integrity validation at
all.  It cannot fail: for every catalog and interaction log — including
logs whose interactions reference item_ids absent from the catalog —
it succeeds and retains every row of both inputs unchanged.  No
DataIntegrityError exists anywhere in the source. -/
theorem C4_load_never_validates (products : List Product) (purchases : List Purchase) :
    (load_data products purchases).products_df = products ∧
      (load_data products purchases).purchases_df = purchases :=
  ⟨rfl, rfl⟩

/-! ## Claim C5: non-positive counts are not rejected (amended) -/

/-- Claim C5 (amended): the count argument is never validated and no
InvalidArgumentError exists in the source; count = 0 flows into
DataFrame.head(0) and yields the empty list (a negative count yields
all but the last |count| ranked candidates — see the counterexample). -/
theorem C5_zero_count_returns_empty (sys : RecSystem) (u : Int) :
    get_recommendations sys u 0 = [] := by
  unfold get_recommendations get_popular_products
  by_cases hfsu : find_similar_users sys u 5 = []
  · rw [if_pos hfsu, aggregateRankJoin_zero]
  · rw [if_neg hfsu, aggregateRankJoin_zero]

/-! ## Claim C7: output length is bounded by the requested count (amended) -/

/-- Claim C7 (amended): with a duplicate-free catalog the output length
never exceeds the requested positive count n; the second half of the
original claim is false — the output can be shorter than n even though
at least n eligible in-catalog candidates exist, because head(n)
truncates BEFORE the catalog join drops uncatalogued candidates (see
the counterexample). -/
theorem C7_length_le_count (sys : RecSystem) (u n : Int) (hn : 0 < n)
    (hnd : (sys.products_df.map (·.product_id)).Nodup) :
    (get_recommendations sys u n).length ≤ n.toNat := by
  unfold get_recommendations get_popular_products
  by_cases hfsu : find_similar_users sys u 5 = []
  · rw [if_pos hfsu]
    exact length_aggregateRankJoin_le hnd (le_of_lt hn)
  · rw [if_neg hfsu]
    exact length_aggregateRankJoin_le hnd (le_of_lt hn)

/-! ## Claim C8: uncatalogued candidates are dropped, not surfaced (amended) -/

/-- Claim C8 (amended): a surviving candidate whose item_id is absent
from the catalog is silently dropped by the inner merge — no error is
raised and no output row ever carries an item_id missing from the
catalog. -/
theorem C8_unknown_item_never_output (sys : RecSystem) (u n : Int) (i : Int)
    (hi : i ∉ sys.products_df.map (·.product_id)) :
    i ∉ (get_recommendations sys u n).map (·.product_id) := by
  intro hmem
  rcases List.mem_map.mp hmem with ⟨r, hr, rfl⟩
  unfold get_recommendations get_popular_products at hr
  by_cases hfsu : find_similar_users sys u 5 = []
  · rw [if_pos hfsu] at hr
    exact hi (mem_aggregateRankJoin hr).2
  · rw [if_neg hfsu] at hr
    exact hi (mem_aggregateRankJoin hr).2

/-! ## Claim C9: the ranked output respects the documented order -/

/-- Claim C9 (confirmed): with a duplicate-free catalog (the data model
declares item_id unique), both get_recommendations and
get_popular_products emit rows ordered by mean rating descending, count
descending on rating ties, and ascending product_id on full key ties —
the stable sort inherits the ascending groupby key order. -/
theorem C9_output_sorted (sys : RecSystem) (u n : Int)
    (hnd : (sys.products_df.map (·.product_id)).Nodup) :
    (get_recommendations sys u n).Pairwise rowKeyAfter ∧
      (get_popular_products sys n).Pairwise rowKeyAfter := by
  constructor
  · unfold get_recommendations get_popular_products
    by_cases hfsu : find_similar_users sys u 5 = []
    · rw [if_pos hfsu]
      exact pairwise_aggregateRankJoin hnd
    · rw [if_neg hfsu]
      exact pairwise_aggregateRankJoin hnd
  · exact pairwise_aggregateRankJoin hnd

/-! ## Claim C10: the pivot aggregates duplicates by arithmetic mean -/

/-- Claim C10 (confirmed): when two interactions share the same
(user_id, product_id) cell, the pivot cell holds the arithmetic mean of
their ratings — in particular, when the ratings differ it is NOT the
last rating observed. -/
theorem C10_pivot_mean_aggregation (rows : List Purchase) (u p : Int) (r1 r2 : ℚ)
    (h : (rows.filter (fun q => q.user_id == u && q.product_id == p)).map (·.rating) =
      [r1, r2]) :
    matrixCell rows u p = (r1 + r2) / 2 ∧ (r1 ≠ r2 → matrixCell rows u p ≠ r2) := by
  have hcell : matrixCell rows u p = (r1 + r2) / 2 := by
    unfold matrixCell
    rw [h]
    norm_num
  refine ⟨hcell, fun hne heq => hne ?_⟩
  rw [hcell] at heq
  field_simp at heq
  linarith

/-! ## Concrete counterexamples, code-bug evaluations and witnesses

The rational arithmetic of the engine is evaluated by the kernel; the
Batteries implementation of the field operations on ℚ is locally made
semireducible so that decide can reduce them. -/

section ConcreteEvaluations

attribute [local semireducible] Rat.mul Rat.add Rat.inv

/-- Claim C1 counterexample: in exSolo, user 1 is the only user of the
log and purchased item 10; find_similar_users slices away the single
similarity row, so the popularity fallback runs and recommends item 10
back to user 1 — an already-purchased item is recommended. -/
theorem C1_counterexample_sole_user :
    (⟨1, 10, 5⟩ : Purchase) ∈ exSolo.purchases_df ∧
      (get_recommendations exSolo 1 5).map (·.product_id) = [10] := by
  constructor
  · decide
  · decide

/-- Witness for the amended C1 at a concrete input: exJoin has another
user besides user 1, and no output row of get_recommendations carries
an item user 1 purchased. -/
theorem C1_excludes_purchased_witness :
    (0 : Int) < 2 ∧ (∃ q ∈ exJoin.purchases_df, q.user_id ≠ 1) ∧
      ∀ r ∈ get_recommendations exJoin 1 2, ∀ q ∈ exJoin.purchases_df,
        q.user_id = 1 → q.product_id ≠ r.product_id :=
  ⟨by decide, by decide, C1_excludes_purchased exJoin 1 2 (by decide) (by decide)⟩

/-- Claim C3 counterexample: in exPair, user 1 is known and has the
nonempty neighbor list [2], every interaction of user 2 is on an item
user 1 already purchased, and get_recommendations returns the empty
list — not the nonempty popularity fallback the claim requires. -/
theorem C3_counterexample_filtered_out :
    find_similar_users exPair 1 5 = [2] ∧
      (∀ q ∈ exPair.purchases_df, q.user_id = 2 → q.product_id ∈ userPurchases exPair 1) ∧
      get_recommendations exPair 1 5 = [] ∧
      get_recommendations exPair 1 5 ≠ get_popular_products exPair 5 := by
  refine ⟨by decide, by decide, by decide, by decide⟩

/-- Witness for the amended C3 at a concrete input. -/
theorem C3_filtered_out_returns_empty_witness :
    find_similar_users exPair 1 5 ≠ [] ∧
      (∀ q ∈ exPair.purchases_df, q.user_id ∈ find_similar_users exPair 1 5 →
        q.product_id ∈ userPurchases exPair 1) ∧
      get_recommendations exPair 1 7 = [] :=
  ⟨by decide, by decide, C3_filtered_out_returns_empty exPair 1 7 (by decide) (by decide)⟩

/-- Claim C4 counterexample: load_data given the interaction
(user 9, item 999, rating 5) with item 999 absent from the catalog
returns normally — it raises nothing — and retains the offending
interaction in purchases_df instead of rejecting or dropping it. -/
theorem C4_counterexample_load_accepts_unknown_item :
    exGhost.purchases_df = [⟨9, 999, 5⟩] ∧
      999 ∉ exGhost.products_df.map (·.product_id) := by
  refine ⟨by decide, by decide⟩

/-- Claim C5 counterexample: get_recommendations with count 0 returns
the empty list and with count -1 returns a list (all ranked candidates
but the last one, after the join) — neither call raises anything, and
no InvalidArgumentError exists in the source. -/
theorem C5_counterexample_nonpositive_count :
    get_recommendations exPair 1 0 = [] ∧
      (get_recommendations exJoin 1 (-1)).map (·.product_id) = [1] := by
  refine ⟨by decide, by decide⟩

/-- Claim C6 (code bug), evaluated at the failing input: in exPair the
rating vectors of users 1 and 2 are proportional, so the similarity of
user 2 to user 1 ties the self-similarity at exactly 1 (neither
compares greater than the other); the stable descending sort keeps
index order [1, 2], the slice [1:6] drops user 1 instead of the self
row, and find_similar_users returns [2] — the target user is returned
as their own neighbor. -/
theorem C6_self_returned_on_similarity_tie :
    simGt (simPair exPair.purchases_df 2 1) (simPair exPair.purchases_df 2 2) = false ∧
      simGt (simPair exPair.purchases_df 2 2) (simPair exPair.purchases_df 2 1) = false ∧
      find_similar_users exPair 2 5 = [2] := by
  refine ⟨by decide, by decide, by decide⟩

/-- Claim C7 counterexample: in exJoin at least two eligible in-catalog
candidates exist for user 1 (items 1 and 2, both returned when three
are requested), yet get_recommendations with count 2 returns only one
row: head(2) picked the uncatalogued candidate 999 before the join
dropped it. -/
theorem C7_counterexample_truncation_before_join :
    (get_recommendations exJoin 1 2).length = 1 ∧
      (get_recommendations exJoin 1 3).map (·.product_id) = [1, 2] := by
  refine ⟨by decide, by decide⟩

/-- Witness for the amended C7 at a concrete input. -/
theorem C7_length_le_count_witness :
    (0 : Int) < 2 ∧ (exJoin.products_df.map (·.product_id)).Nodup ∧
      (get_recommendations exJoin 1 2).length ≤ (2 : Int).toNat :=
  ⟨by decide, by decide, C7_length_le_count exJoin 1 2 (by decide) (by decide)⟩

/-- Claim C8 counterexample: candidate 999 survives filtering and
ranking (it heads the sorted candidate list of user 1 in exJoin) and is
absent from the catalog, yet get_recommendations returns normally
without it — the candidate is silently dropped, no error surfaces. -/
theorem C8_counterexample_silent_drop :
    999 ∈ (dfHead 5 (sortValuesDesc candGt (groupbyAgg (similarPurchases exJoin 1)))).map
      (·.pid) ∧
      999 ∉ exJoin.products_df.map (·.product_id) ∧
      (get_recommendations exJoin 1 5).map (·.product_id) = [1, 2] := by
  refine ⟨by decide, by decide, by decide⟩

/-- Witness for the amended C8 at a concrete input. -/
theorem C8_unknown_item_never_output_witness :
    999 ∉ exJoin.products_df.map (·.product_id) ∧
      999 ∉ (get_recommendations exJoin 1 5).map (·.product_id) :=
  ⟨by decide, C8_unknown_item_never_output exJoin 1 5 999 (by decide)⟩

/-- Witness for C9 at a concrete input with a duplicate-free catalog. -/
theorem C9_output_sorted_witness :
    (exJoin.products_df.map (·.product_id)).Nodup ∧
      ((get_recommendations exJoin 1 5).Pairwise rowKeyAfter ∧
        (get_popular_products exJoin 5).Pairwise rowKeyAfter) :=
  ⟨by decide, C9_output_sorted exJoin 1 5 (by decide)⟩

/-- Witness for C10 at a concrete input: user 1 rated product 10 twice
in exDup, with 5 then 3; the pivot cell is their mean 4, not the last
rating 3. -/
theorem C10_pivot_mean_aggregation_witness :
    ((exDup.purchases_df.filter (fun q => q.user_id == 1 && q.product_id == 10)).map
      (·.rating) = [5, 3]) ∧
      (matrixCell exDup.purchases_df 1 10 = (5 + 3) / 2 ∧
        ((5 : ℚ) ≠ 3 → matrixCell exDup.purchases_df 1 10 ≠ 3)) :=
  ⟨by decide, C10_pivot_mean_aggregation exDup.purchases_df 1 10 5 3 (by decide)⟩

end ConcreteEvaluations
